import Mathlib

/-!
Shallow embedding of the access-rule lookup core and resource CRUD glue of
the `terraform-provider-cloudflare` repository
(`cloudflare/resource_cloudflare_firewall_access_rule.go` and
`cloudflare/resource_cloudflare_virtual_dns.go`).

Remote calls are modelled as explicit function parameters (oracles); the
process-global cache maps become explicit state threaded through each
operation; Go's `map[string]T` becomes an association list whose lookup
returns the most recently written binding; Go `error` values become
`Except String`.  The unbounded `for` pagination loop is modelled with a
fuel parameter: `none` means the fuel ran out before the loop terminated.
Every operation additionally returns the trace of listing requests it
issued, so that page-fetch counts and the scope filter of each request can
be stated.
-/

namespace TerraformCloudflare

/-- Mirrors `cloudflare.AccessRuleConfiguration` (fields `Target`, `Value`)
as read and written by the resource code. -/
structure AccessRuleConfiguration where
  Target : String
  Value : String
deriving DecidableEq, Repr

/-- Mirrors the scope tag of `cloudflare.AccessRule` as used by the
resource code, which only ever reads or writes `Scope.Type`. -/
structure AccessRuleScope where
  Type' : String
deriving DecidableEq, Repr

/-- Mirrors the fields of `cloudflare.AccessRule` that the resource code
reads and writes: `ID`, `Notes`, `Mode`, `Configuration`, `Scope`. -/
structure AccessRule where
  ID : String
  Notes : String
  Mode : String
  Configuration : AccessRuleConfiguration
  Scope : AccessRuleScope
deriving DecidableEq, Repr

/-- Mirrors `cloudflare.AccessRuleResponse`: the single-rule response of
the create/update/delete endpoints, of which the code reads `Result`. -/
structure AccessRuleResponse where
  Result : AccessRule
deriving DecidableEq, Repr

/-- Mirrors `cloudflare.AccessRuleListResponse` as consumed by the
pagination loop: the page's rules (`Result`) and the reported total page
count (`TotalPages`, a Go `int`, hence `Int` here). -/
structure AccessRuleListResponse where
  Result : List AccessRule
  TotalPages : Int
deriving DecidableEq, Repr

/-- One listing request as issued by the pagination loop: the collection
identifier passed to the client call, the scope filter (the
`search.Scope.Type` value, which also selects between the zone-scoped and
organization-scoped endpoint families), and the 1-indexed page number. -/
structure ListRequest where
  collectionID : String
  scopeFilter : String
  page : Nat
deriving DecidableEq, Repr

/-- The remote listing endpoint, as an oracle: a page fetch either fails
(Go `err != nil`) or returns a page response. -/
abbrev Fetcher : Type :=
  ListRequest → Except String AccessRuleListResponse

/-- A Go `map[string]cloudflare.AccessRule`, as an association list; the
most recent write is the one `alookup` sees. -/
abbrev RulesMap : Type :=
  List (String × AccessRule)

/-- A process-global cache map (`zoneAccessRules` or
`organizationAccessRules` in the source): collection ID to scanned rules. -/
abbrev Cache : Type :=
  List (String × RulesMap)

/-- Go map lookup `m[k]` on the association-list model: the most recently
written binding for `k`, if any. -/
def alookup (k : String) : List (String × α) → Option α
  | [] => none
  | (k', v) :: rest => if k = k' then some v else alookup k rest

/-- The inner loop body `for _, rule := range res.Result { rules[rule.ID] = rule }`:
merge a page of rules into the accumulating map, keyed by rule ID,
last write winning. -/
def mergeRules (rules : RulesMap) (page : List AccessRule) : RulesMap :=
  page.foldl (fun m rule => (rule.ID, rule) :: m) rules

/-- The pagination `for` loop shared by `getZoneAccessRules` and
`getOrganizationAccessRules` (source lines 158-171 and 196-209): fetch the
current page, abort on error, merge the page, stop when the reported total
page count is zero or equals the current page, else advance.  `fuel`
bounds the number of iterations; `none` means the loop did not terminate
within the fuel.  Also returns the list of requests issued. -/
def scanLoop (fetch : Fetcher) (collectionID scopeFilter : String) :
    Nat → Nat → RulesMap → Option (Except String RulesMap × List ListRequest)
  | 0, _, _ => none
  | fuel + 1, page, rules =>
    match fetch ⟨collectionID, scopeFilter, page⟩ with
    | .error e => some (.error e, [⟨collectionID, scopeFilter, page⟩])
    | .ok res =>
      if res.TotalPages = 0 ∨ res.TotalPages = (page : Int) then
        some (.ok (mergeRules rules res.Result), [⟨collectionID, scopeFilter, page⟩])
      else
        match scanLoop fetch collectionID scopeFilter fuel (page + 1)
            (mergeRules rules res.Result) with
        | none => none
        | some (out, tr) => some (out, ⟨collectionID, scopeFilter, page⟩ :: tr)

/-- `getZoneAccessRules` (source lines 151-174): return the cached map for
`zoneID` if present; otherwise scan all pages with the zone scope filter
starting at page 1, cache the completed map under `zoneID` on success, and
on failure return the fetch error with the cache unchanged. -/
def getZoneAccessRules (fetch : Fetcher) (zoneAccessRules : Cache)
    (zoneID : String) (fuel : Nat) :
    Option (Except String RulesMap × Cache × List ListRequest) :=
  match alookup zoneID zoneAccessRules with
  | some rules => some (.ok rules, zoneAccessRules, [])
  | none =>
    match scanLoop fetch zoneID "zone" fuel 1 [] with
    | none => none
    | some (.error e, tr) => some (.error e, zoneAccessRules, tr)
    | some (.ok rules, tr) => some (.ok rules, (zoneID, rules) :: zoneAccessRules, tr)

/-- `findZoneAccessRule` (source lines 176-185): obtain the zone's rule
map (cached or freshly scanned), then look the rule ID up in it; a missing
ID yields the `cannot find zone firewall access rule` error. -/
def findZoneAccessRule (fetch : Fetcher) (cache : Cache)
    (zoneID ruleID : String) (fuel : Nat) :
    Option (Except String AccessRule × Cache × List ListRequest) :=
  match getZoneAccessRules fetch cache zoneID fuel with
  | none => none
  | some (.error e, c, tr) => some (.error e, c, tr)
  | some (.ok rules, c, tr) =>
    match alookup ruleID rules with
    | some rule => some (.ok rule, c, tr)
    | none =>
      some (.error ("cannot find zone firewall access rule for ID " ++ ruleID), c, tr)

/-- `getOrganizationAccessRules` (source lines 189-212): as
`getZoneAccessRules` but over the organization cache, the organization
scope filter and the organization endpoint. -/
def getOrganizationAccessRules (fetch : Fetcher) (organizationAccessRules : Cache)
    (orgID : String) (fuel : Nat) :
    Option (Except String RulesMap × Cache × List ListRequest) :=
  match alookup orgID organizationAccessRules with
  | some rules => some (.ok rules, organizationAccessRules, [])
  | none =>
    match scanLoop fetch orgID "organization" fuel 1 [] with
    | none => none
    | some (.error e, tr) => some (.error e, organizationAccessRules, tr)
    | some (.ok rules, tr) =>
      some (.ok rules, (orgID, rules) :: organizationAccessRules, tr)

/-- `findOrganizationAccessRule` (source lines 214-223). -/
def findOrganizationAccessRule (fetch : Fetcher) (cache : Cache)
    (orgID ruleID : String) (fuel : Nat) :
    Option (Except String AccessRule × Cache × List ListRequest) :=
  match getOrganizationAccessRules fetch cache orgID fuel with
  | none => none
  | some (.error e, c, tr) => some (.error e, c, tr)
  | some (.ok rules, c, tr) =>
    match alookup ruleID rules with
    | some rule => some (.ok rule, c, tr)
    | none =>
      some (.error ("cannot find organization firewall access rule for ID " ++ ruleID),
        c, tr)

/-- Mirrors the owner of `cloudflare.Zone` as read by the resource code
(`zone.Owner.ID`). -/
structure ZoneOwner where
  ID : String
deriving DecidableEq, Repr

/-- Mirrors the fields of `cloudflare.Zone` that the resource code reads. -/
structure Zone where
  Owner : ZoneOwner
deriving DecidableEq, Repr

/-- The remote endpoints of `cloudflare.API` used by the access-rule
resource, as oracles. -/
structure ClientAPI where
  zoneIDByName : String → Except String String
  zoneDetails : String → Except String Zone
  createZoneAccessRule : String → AccessRule → Except String AccessRuleResponse
  createOrganizationAccessRule : String → AccessRule → Except String AccessRuleResponse
  updateZoneAccessRule : String → String → AccessRule → Except String AccessRuleResponse
  updateOrganizationAccessRule : String → String → AccessRule → Except String AccessRuleResponse
  deleteZoneAccessRule : String → String → Except String AccessRuleResponse
  deleteOrganizationAccessRule : String → String → Except String AccessRuleResponse
  listRules : Fetcher

/-- The schema fields of the access-rule resource data, covering the
`d.Get`, `d.Set`, `d.Id` and `d.SetId` accesses of the source. -/
structure ResourceData where
  id : String
  zone : String
  zone_id : String
  org_id : String
  scope : String
  mode : String
  target : String
  value : String
  notes : String
deriving DecidableEq, Repr

/-- The two process-global cache maps of the source file. -/
structure Caches where
  zoneAccessRules : Cache
  organizationAccessRules : Cache
deriving DecidableEq, Repr

/-- `resourceCloudflareFirewallAccessRuleRead` (source lines 124-147):
dispatch on the scope to the zone or organization finder, propagate its
error, and on success copy the found rule's fields into the resource
data. -/
def resourceCloudflareFirewallAccessRuleRead (api : ClientAPI) (fuel : Nat)
    (d : ResourceData) (w : Caches) :
    Option (Except String Unit × ResourceData × Caches × List ListRequest) :=
  if d.scope == "zone" then
    match findZoneAccessRule api.listRules w.zoneAccessRules d.zone_id d.id fuel with
    | none => none
    | some (.error e, c', tr) => some (.error e, d, { w with zoneAccessRules := c' }, tr)
    | some (.ok rule, c', tr) =>
      some (.ok (), { d with mode := rule.Mode, target := rule.Configuration.Target, value := rule.Configuration.Value, notes := rule.Notes },
        { w with zoneAccessRules := c' }, tr)
  else
    match findOrganizationAccessRule api.listRules w.organizationAccessRules
        d.org_id d.id fuel with
    | none => none
    | some (.error e, c', tr) =>
      some (.error e, d, { w with organizationAccessRules := c' }, tr)
    | some (.ok rule, c', tr) =>
      some (.ok (), { d with mode := rule.Mode, target := rule.Configuration.Target, value := rule.Configuration.Value, notes := rule.Notes },
        { w with organizationAccessRules := c' }, tr)

/-- The scope-resolution block shared verbatim by the create and import
operations (source lines 84-91 and 291-298): for non-zone scope fetch the
zone details once and take the owner's ID as the organization ID, else use
the placeholder "N/A" without any remote call; the second component counts
the zone-details calls issued. -/
def resolveScope (zoneDetails : String → Except String Zone)
    (scope zoneID : String) : Except String String × Nat :=
  if scope != "zone" then
    match zoneDetails zoneID with
    | .error e => (.error e, 1)
    | .ok zone => (.ok zone.Owner.ID, 1)
  else (.ok "N/A", 0)

/-- The `cloudflare.AccessRule` literal built by the create operation
(source lines 94-101): mode, target, value and notes from the resource
data, ID and scope left at their zero values. -/
def accessRuleFromData (d : ResourceData) : AccessRule :=
  { ID := "", Mode := d.mode,
    Configuration := { Target := d.target, Value := d.value },
    Notes := d.notes, Scope := { Type' := "" } }

/-- The `cloudflare.AccessRule` literal built by the update operation
(source lines 232-240): as the create literal but carrying the rule ID. -/
def accessRuleFromDataWithID (d : ResourceData) : AccessRule :=
  { accessRuleFromData d with ID := d.id }

/-- The collection identifier the create dispatch passes to the remote
create call (source lines 104-113): the zone ID for zone scope, the
resolved organization ID otherwise. -/
def collectionIDOf (scope zoneID orgID : String) : String :=
  if scope == "zone" then zoneID else orgID

/-- `resourceCloudflareFirewallAccessRuleCreate` (source lines 73-122):
resolve the zone ID by name, resolve the organization ID for non-zone
scope, issue the scoped create call, reject an empty returned rule ID,
assign the returned ID, then run the read operation. -/
def resourceCloudflareFirewallAccessRuleCreate (api : ClientAPI) (fuel : Nat)
    (d : ResourceData) (w : Caches) :
    Option (Except String Unit × ResourceData × Caches × List ListRequest) :=
  match api.zoneIDByName d.zone with
  | .error e => some (.error e, d, w, [])
  | .ok zoneID =>
    match (resolveScope api.zoneDetails d.scope zoneID).1 with
    | .error e => some (.error e, { d with zone_id := zoneID }, w, [])
    | .ok orgID =>
      match (if d.scope == "zone"
          then api.createZoneAccessRule zoneID (accessRuleFromData d)
          else api.createOrganizationAccessRule orgID (accessRuleFromData d)) with
      | .error e => some (.error e, { d with zone_id := zoneID, org_id := orgID }, w, [])
      | .ok res =>
        if res.Result.ID == "" then
          some (.error "failed to find ID in Create response; resource was empty",
            { d with zone_id := zoneID, org_id := orgID }, w, [])
        else
          resourceCloudflareFirewallAccessRuleRead api fuel
            { d with zone_id := zoneID, org_id := orgID, id := res.Result.ID } w

/-- `resourceCloudflareFirewallAccessRuleUpdate` (source lines 225-253):
issue the scoped update call with the rule built from the resource data,
propagate its error, then run the read operation. -/
def resourceCloudflareFirewallAccessRuleUpdate (api : ClientAPI) (fuel : Nat)
    (d : ResourceData) (w : Caches) :
    Option (Except String Unit × ResourceData × Caches × List ListRequest) :=
  if d.scope == "zone" then
    match api.updateZoneAccessRule d.zone_id d.id (accessRuleFromDataWithID d) with
    | .error e => some (.error e, d, w, [])
    | .ok _ => resourceCloudflareFirewallAccessRuleRead api fuel d w
  else
    match api.updateOrganizationAccessRule d.org_id d.id (accessRuleFromDataWithID d) with
    | .error e => some (.error e, d, w, [])
    | .ok _ => resourceCloudflareFirewallAccessRuleRead api fuel d w

/-- `resourceCloudflareFirewallAccessRuleDelete` (source lines 255-272):
issue the scoped delete call and propagate its error; no cache is read or
written. -/
def resourceCloudflareFirewallAccessRuleDelete (api : ClientAPI)
    (d : ResourceData) (w : Caches) :
    Except String Unit × ResourceData × Caches :=
  if d.scope == "zone" then
    match api.deleteZoneAccessRule d.zone_id d.id with
    | .error e => (.error e, d, w)
    | .ok _ => (.ok (), d, w)
  else
    match api.deleteOrganizationAccessRule d.org_id d.id with
    | .error e => (.error e, d, w)
    | .ok _ => (.ok (), d, w)

/-- Mirrors the fields of `cloudflare.VirtualDNS` used by the resource
code (vendored `virtualdns.go`). -/
structure VirtualDNS where
  ID : String
  Name : String
  OriginIPs : List String
  VirtualDNSIPs : List String
  MinimumCacheTTL : Nat
  MaximumCacheTTL : Nat
  DeprecateAnyRequests : Bool
  EcsFallback : Bool
  RateLimit : Nat
deriving DecidableEq, Repr

/-- The schema fields of the virtual DNS resource data. -/
structure VirtualDNSResourceData where
  id : String
  name : String
  origin_ips : List String
  virtual_dns_ips : List String
  minimum_cache_ttl : Nat
  maximum_cache_ttl : Nat
  deprecate_any_requests : Bool
  ecs_fallback : Bool
  ratelimit : Nat
deriving DecidableEq, Repr

/-- Go `strings.Contains(s, pat)` on the character-list model of
strings. -/
def strContains (s pat : String) : Bool :=
  decide (pat.data <:+: s.data)

/-- `resourceCloudflareVirtualDNSRead` (source lines 148-175): fetch the
cluster; a failure whose message contains "HTTP status 404" clears the
resource ID and succeeds, any other failure is returned wrapped in the
read-error message with the data untouched; success copies the cluster's
fields into the resource data. -/
def resourceCloudflareVirtualDNSRead
    (organizationVirtualDNS : String → String → Except String VirtualDNS)
    (organizationID : String) (d : VirtualDNSResourceData) :
    Except String Unit × VirtualDNSResourceData :=
  match organizationVirtualDNS organizationID d.id with
  | .error e =>
    if strContains e "HTTP status 404" then
      (.ok (), { d with id := "" })
    else
      (.error ("Error reading VirtualDNS from API for resource " ++ d.id ++ ": " ++ e), d)
  | .ok v =>
    (.ok (), { d with name := v.Name, origin_ips := v.OriginIPs, virtual_dns_ips := v.VirtualDNSIPs, minimum_cache_ttl := v.MinimumCacheTTL, maximum_cache_ttl := v.MaximumCacheTTL, deprecate_any_requests := v.DeprecateAnyRequests, ecs_fallback := v.EcsFallback, ratelimit := v.RateLimit })

/-- The accumulated rule map after scanning pages `page, page + 1, ..., page + k`
of a paged collection whose page `p` holds the rules `content p`. -/
def mergeSeq (content : Nat → List AccessRule) (page : Nat) :
    Nat → RulesMap → RulesMap
  | 0, acc => mergeRules acc (content page)
  | k + 1, acc => mergeSeq content (page + 1) k (mergeRules acc (content page))

/-- The listing requests issued when scanning pages `page, ..., page + k`. -/
def reqSeq (collectionID scopeFilter : String) (page : Nat) : Nat → List ListRequest
  | 0 => [⟨collectionID, scopeFilter, page⟩]
  | k + 1 =>
    ⟨collectionID, scopeFilter, page⟩ :: reqSeq collectionID scopeFilter (page + 1) k

/-- A concrete rule used by witness instances. -/
def ruleA : AccessRule :=
  { ID := "A", Notes := "", Mode := "block", Configuration := ⟨"ip", "1.2.3.4"⟩,
    Scope := ⟨"zone"⟩ }

/-- A concrete rule used by witness instances. -/
def ruleB : AccessRule :=
  { ID := "B", Notes := "", Mode := "challenge", Configuration := ⟨"ip", "5.6.7.8"⟩,
    Scope := ⟨"zone"⟩ }

/-- A fetcher serving a fixed sequence of pages, every response reporting
the total page count `pages.length`; page `p` serves `pages[p-1]`. -/
def pagesFetcher (pages : List (List AccessRule)) : Fetcher :=
  fun req => .ok ⟨(pages.drop (req.page - 1)).headD [], (pages.length : Int)⟩

/-- A stub client whose every remote call fails; concrete clients for
witness instances override individual fields. -/
def apiStub : ClientAPI where
  zoneIDByName _ := .error "stub"
  zoneDetails _ := .error "stub"
  createZoneAccessRule _ _ := .error "stub"
  createOrganizationAccessRule _ _ := .error "stub"
  updateZoneAccessRule _ _ _ := .error "stub"
  updateOrganizationAccessRule _ _ _ := .error "stub"
  deleteZoneAccessRule _ _ := .error "stub"
  deleteOrganizationAccessRule _ _ := .error "stub"
  listRules _ := .error "stub"

/-- Concrete resource data used by witness instances. -/
def dStub : ResourceData where
  id := "R1"
  zone := "example.com"
  zone_id := "Z1"
  org_id := "O1"
  scope := "zone"
  mode := "block"
  target := "ip"
  value := "1.2.3.4"
  notes := ""

/-- Concrete cache state used by witness instances. -/
def wStub : Caches where
  zoneAccessRules := [("Z1", [("A", ruleA)])]
  organizationAccessRules := []

/-- Concrete virtual DNS resource data used by witness instances. -/
def vdStub : VirtualDNSResourceData where
  id := "V1"
  name := "cluster"
  origin_ips := ["1.2.3.4"]
  virtual_dns_ips := []
  minimum_cache_ttl := 60
  maximum_cache_ttl := 900
  deprecate_any_requests := false
  ecs_fallback := false
  ratelimit := 5000

/-- A client whose create call succeeds but returns a rule with an empty
ID, as exercised by the create-rejection witness. -/
def apiCreateEmpty : ClientAPI :=
  { apiStub with zoneIDByName := fun _ => .ok "Z1",
                 createZoneAccessRule := fun _ _ => .ok ⟨accessRuleFromData dStub⟩ }

theorem reqSeq_length (collectionID scopeFilter : String) :
    ∀ (k page : Nat), (reqSeq collectionID scopeFilter page k).length = k + 1 := by
  intro k
  induction k with
  | zero => intro page; rfl
  | succ k ih => intro page; simp only [reqSeq, List.length_cons, ih (page + 1)]

theorem alookup_cons (k k' : String) (v : α) (rest : List (String × α)) :
    alookup k ((k', v) :: rest) = if k = k' then some v else alookup k rest := rfl

theorem mergeRules_cons (acc : RulesMap) (x : AccessRule) (xs : List AccessRule) :
    mergeRules acc (x :: xs) = mergeRules ((x.ID, x) :: acc) xs := rfl

/-- Merging a page whose rules with ID `rid` all equal `r` preserves a
binding of `rid` to `r`. -/
theorem alookup_mergeRules_of_eq (rid : String) (r : AccessRule) :
    ∀ (page : List AccessRule) (acc : RulesMap),
      (∀ x ∈ page, x.ID = rid → x = r) → alookup rid acc = some r →
      alookup rid (mergeRules acc page) = some r := by
  intro page
  induction page with
  | nil => intro acc _ hacc; exact hacc
  | cons x xs ih =>
    intro acc hall hacc
    rw [mergeRules_cons]
    refine ih ((x.ID, x) :: acc) (fun y hy hyid => hall y (List.mem_cons_of_mem x hy) hyid) ?_
    rw [alookup_cons]
    by_cases h : rid = x.ID
    · rw [if_pos h, hall x (List.mem_cons_self x xs) h.symm]
    · rw [if_neg h]; exact hacc

/-- Merging a page with no rule of ID `rid` leaves the lookup of `rid`
unchanged. -/
theorem alookup_mergeRules_of_absent (rid : String) :
    ∀ (page : List AccessRule) (acc : RulesMap),
      (∀ x ∈ page, x.ID ≠ rid) →
      alookup rid (mergeRules acc page) = alookup rid acc := by
  intro page
  induction page with
  | nil => intro acc _; rfl
  | cons x xs ih =>
    intro acc hall
    rw [mergeRules_cons, ih ((x.ID, x) :: acc) (fun y hy => hall y (List.mem_cons_of_mem x hy)),
      alookup_cons, if_neg (fun h => hall x (List.mem_cons_self x xs) h.symm)]

/-- Merging a page containing `r` — with every rule of ID `rid` in the
page equal to `r` — makes `rid` look up to `r`. -/
theorem alookup_mergeRules_of_mem (rid : String) (r : AccessRule) :
    ∀ (page : List AccessRule) (acc : RulesMap),
      (∀ x ∈ page, x.ID = rid → x = r) → r ∈ page → r.ID = rid →
      alookup rid (mergeRules acc page) = some r := by
  intro page
  induction page with
  | nil => intro acc _ hmem _; exact absurd hmem (List.not_mem_nil r)
  | cons x xs ih =>
    intro acc hall hmem hrid
    by_cases hx : x.ID = rid
    · have hxr : x = r := hall x (List.mem_cons_self x xs) hx
      rw [mergeRules_cons]
      refine alookup_mergeRules_of_eq rid r xs ((x.ID, x) :: acc)
        (fun y hy hyid => hall y (List.mem_cons_of_mem x hy) hyid) ?_
      rw [alookup_cons, if_pos hx.symm, hxr]
    · have hrxs : r ∈ xs := by
        rcases List.mem_cons.mp hmem with h | h
        · exact absurd (show x.ID = rid by rw [← h]; exact hrid) hx
        · exact h
      rw [mergeRules_cons]
      exact ih ((x.ID, x) :: acc)
        (fun y hy hyid => hall y (List.mem_cons_of_mem x hy) hyid) hrxs hrid

/-- `alookup_mergeRules_of_eq`, lifted over a window of pages. -/
theorem alookup_mergeSeq_of_eq (rid : String) (r : AccessRule)
    (content : Nat → List AccessRule) :
    ∀ (k page : Nat) (acc : RulesMap),
      (∀ i, i ≤ k → ∀ x ∈ content (page + i), x.ID = rid → x = r) →
      alookup rid acc = some r →
      alookup rid (mergeSeq content page k acc) = some r := by
  intro k
  induction k with
  | zero =>
    intro page acc hall hacc
    exact alookup_mergeRules_of_eq rid r (content page) acc
      (fun x hx => hall 0 (Nat.le_refl 0) x (by simpa using hx)) hacc
  | succ k ih =>
    intro page acc hall hacc
    show alookup rid (mergeSeq content (page + 1) k (mergeRules acc (content page))) = some r
    refine ih (page + 1) (mergeRules acc (content page)) ?_ ?_
    · intro i hi x hx hxid
      have heq : page + 1 + i = page + (i + 1) := by omega
      exact hall (i + 1) (by omega) x (heq ▸ hx) hxid
    · exact alookup_mergeRules_of_eq rid r (content page) acc
        (fun x hx => hall 0 (by omega) x (by simpa using hx)) hacc

/-- `alookup_mergeRules_of_absent`, lifted over a window of pages. -/
theorem alookup_mergeSeq_of_absent (rid : String) (content : Nat → List AccessRule) :
    ∀ (k page : Nat) (acc : RulesMap),
      (∀ i, i ≤ k → ∀ x ∈ content (page + i), x.ID ≠ rid) →
      alookup rid (mergeSeq content page k acc) = alookup rid acc := by
  intro k
  induction k with
  | zero =>
    intro page acc hall
    exact alookup_mergeRules_of_absent rid (content page) acc
      (fun x hx => hall 0 (Nat.le_refl 0) x (by simpa using hx))
  | succ k ih =>
    intro page acc hall
    have h1 : ∀ i, i ≤ k → ∀ x ∈ content (page + 1 + i), x.ID ≠ rid := by
      intro i hi x hx
      have heq : page + 1 + i = page + (i + 1) := by omega
      exact hall (i + 1) (by omega) x (heq ▸ hx)
    have h0 : ∀ x ∈ content page, x.ID ≠ rid :=
      fun x hx => hall 0 (by omega) x (by simpa using hx)
    show alookup rid (mergeSeq content (page + 1) k (mergeRules acc (content page))) = _
    rw [ih (page + 1) (mergeRules acc (content page)) h1,
      alookup_mergeRules_of_absent rid (content page) acc h0]

/-- `alookup_mergeRules_of_mem`, lifted over a window of pages. -/
theorem alookup_mergeSeq_of_mem (rid : String) (r : AccessRule)
    (content : Nat → List AccessRule) :
    ∀ (k page : Nat) (acc : RulesMap),
      (∀ i, i ≤ k → ∀ x ∈ content (page + i), x.ID = rid → x = r) →
      (∃ i, i ≤ k ∧ r ∈ content (page + i)) → r.ID = rid →
      alookup rid (mergeSeq content page k acc) = some r := by
  intro k
  induction k with
  | zero =>
    intro page acc hall hex hrid
    obtain ⟨i, hi, hmem⟩ := hex
    have hi0 : i = 0 := by omega
    subst hi0
    exact alookup_mergeRules_of_mem rid r (content page) acc
      (fun x hx => hall 0 (Nat.le_refl 0) x (by simpa using hx)) (by simpa using hmem) hrid
  | succ k ih =>
    intro page acc hall hex hrid
    have hshift : ∀ i, i ≤ k → ∀ x ∈ content (page + 1 + i), x.ID = rid → x = r := by
      intro i hi x hx hxid
      have heq : page + 1 + i = page + (i + 1) := by omega
      exact hall (i + 1) (by omega) x (heq ▸ hx) hxid
    have h0 : ∀ x ∈ content page, x.ID = rid → x = r :=
      fun x hx => hall 0 (by omega) x (by simpa using hx)
    show alookup rid (mergeSeq content (page + 1) k (mergeRules acc (content page))) = some r
    by_cases hmem0 : r ∈ content page
    · exact alookup_mergeSeq_of_eq rid r content k (page + 1)
        (mergeRules acc (content page)) hshift
        (alookup_mergeRules_of_mem rid r (content page) acc h0 hmem0 hrid)
    · obtain ⟨i, hi, hmem⟩ := hex
      have hi1 : 1 ≤ i := by
        rcases Nat.eq_zero_or_pos i with h | h
        · subst h; exact absurd (by simpa using hmem) hmem0
        · exact h
      refine ih (page + 1) (mergeRules acc (content page)) hshift ⟨i - 1, by omega, ?_⟩ hrid
      have heq : page + 1 + (i - 1) = page + i := by omega
      rw [heq]; exact hmem

/-- Against a fetcher that answers every page `p` in `1..T` with the rules
`content p` and the constant total-page count `T`, the scan loop started at
page `page` (with `page + k = T`) terminates after exactly the `k + 1`
fetches for pages `page..T`, producing the merged window. -/
theorem scanLoop_const_total (fetch : Fetcher) (collectionID scopeFilter : String)
    (T : Nat) (content : Nat → List AccessRule)
    (hfetch : ∀ p, 1 ≤ p → p ≤ T →
      fetch ⟨collectionID, scopeFilter, p⟩ = .ok ⟨content p, (T : Int)⟩) :
    ∀ (k page : Nat) (acc : RulesMap) (fuel : Nat), 1 ≤ page → page + k = T →
      k + 1 ≤ fuel →
      scanLoop fetch collectionID scopeFilter fuel page acc =
        some (.ok (mergeSeq content page k acc), reqSeq collectionID scopeFilter page k) := by
  intro k
  induction k with
  | zero =>
    intro page acc fuel h1 hpk hfuel
    obtain ⟨f, rfl⟩ : ∃ f, fuel = f + 1 := ⟨fuel - 1, by omega⟩
    simp only [scanLoop, hfetch page h1 (by omega)]
    rw [if_pos (Or.inr (show (T : Int) = (page : Int) by omega))]
    rfl
  | succ k ih =>
    intro page acc fuel h1 hpk hfuel
    obtain ⟨f, rfl⟩ : ∃ f, fuel = f + 1 := ⟨fuel - 1, by omega⟩
    simp only [scanLoop, hfetch page h1 (by omega)]
    rw [if_neg (by
      push_neg
      refine ⟨by omega, by omega⟩)]
    rw [ih (page + 1) (mergeRules acc (content page)) f (by omega) (by omega) (by omega)]
    rfl

/-- When the scan loop reports a fetch error, that error is verbatim the
failure of the last request in the trace. -/
theorem scanLoop_error_last (fetch : Fetcher) (collectionID scopeFilter : String) :
    ∀ (fuel page : Nat) (acc : RulesMap) (e : String) (tr : List ListRequest),
      scanLoop fetch collectionID scopeFilter fuel page acc = some (.error e, tr) →
      ∃ tr' req, tr = tr' ++ [req] ∧ fetch req = .error e := by
  intro fuel
  induction fuel with
  | zero =>
    intro page acc e tr h
    exact absurd h (by simp [scanLoop])
  | succ f ih =>
    intro page acc e tr h
    simp only [scanLoop] at h
    split at h
    · rename_i e' heq
      simp only [Option.some.injEq, Prod.mk.injEq, Except.error.injEq] at h
      obtain ⟨he, htr⟩ := h
      exact ⟨[], ⟨collectionID, scopeFilter, page⟩, htr.symm, by rw [heq, he]⟩
    · split at h
      · exact absurd h (by simp)
      · split at h
        · exact absurd h (by simp)
        · rename_i out tr1 heq1
          simp only [Option.some.injEq, Prod.mk.injEq] at h
          obtain ⟨hout, htr⟩ := h
          obtain ⟨tr', req, htr1, hreq⟩ := ih (page + 1) _ e tr1 (by rw [heq1, hout])
          exact ⟨⟨collectionID, scopeFilter, page⟩ :: tr', req,
            by rw [← htr, htr1]; rfl, hreq⟩

/-- Every request the scan loop issues carries the collection ID and the
scope filter it was started with. -/
theorem scanLoop_trace_fields (fetch : Fetcher) (collectionID scopeFilter : String) :
    ∀ (fuel page : Nat) (acc : RulesMap) (out : Except String RulesMap)
      (tr : List ListRequest),
      scanLoop fetch collectionID scopeFilter fuel page acc = some (out, tr) →
      ∀ req ∈ tr, req.collectionID = collectionID ∧ req.scopeFilter = scopeFilter := by
  intro fuel
  induction fuel with
  | zero =>
    intro page acc out tr h
    exact absurd h (by simp [scanLoop])
  | succ f ih =>
    intro page acc out tr h
    simp only [scanLoop] at h
    split at h
    · simp only [Option.some.injEq, Prod.mk.injEq] at h
      obtain ⟨_, htr⟩ := h
      intro req hreq
      rw [← htr] at hreq
      simp only [List.mem_singleton] at hreq
      subst hreq
      exact ⟨rfl, rfl⟩
    · split at h
      · simp only [Option.some.injEq, Prod.mk.injEq] at h
        obtain ⟨_, htr⟩ := h
        intro req hreq
        rw [← htr] at hreq
        simp only [List.mem_singleton] at hreq
        subst hreq
        exact ⟨rfl, rfl⟩
      · split at h
        · exact absurd h (by simp)
        · rename_i out1 tr1 heq1
          simp only [Option.some.injEq, Prod.mk.injEq] at h
          obtain ⟨hout, htr⟩ := h
          intro req hreq
          rw [← htr] at hreq
          rcases List.mem_cons.mp hreq with hr | hr
          · subst hr; exact ⟨rfl, rfl⟩
          · exact ih (page + 1) _ out1 tr1 heq1 req hr

/-- `getZoneAccessRules` never overwrites or removes a populated cache
entry: it only ever prepends a binding for a previously-absent key. -/
theorem getZoneAccessRules_cache_mono (fetch : Fetcher) (cache : Cache)
    (zoneID : String) (fuel : Nat) (res : Except String RulesMap) (c' : Cache)
    (tr : List ListRequest)
    (h : getZoneAccessRules fetch cache zoneID fuel = some (res, c', tr)) :
    ∀ k v, alookup k cache = some v → alookup k c' = some v := by
  intro k v hk
  unfold getZoneAccessRules at h
  split at h
  · simp only [Option.some.injEq, Prod.mk.injEq] at h
    rw [← h.2.1]; exact hk
  · rename_i hcold
    split at h
    · exact absurd h (by simp)
    · simp only [Option.some.injEq, Prod.mk.injEq] at h
      rw [← h.2.1]; exact hk
    · simp only [Option.some.injEq, Prod.mk.injEq] at h
      have hne : k ≠ zoneID := by
        intro hkz; rw [hkz, hcold] at hk; exact Option.noConfusion hk
      rw [← h.2.1, alookup_cons, if_neg hne]
      exact hk

/-- `getOrganizationAccessRules` never overwrites or removes a populated
cache entry. -/
theorem getOrganizationAccessRules_cache_mono (fetch : Fetcher) (cache : Cache)
    (orgID : String) (fuel : Nat) (res : Except String RulesMap) (c' : Cache)
    (tr : List ListRequest)
    (h : getOrganizationAccessRules fetch cache orgID fuel = some (res, c', tr)) :
    ∀ k v, alookup k cache = some v → alookup k c' = some v := by
  intro k v hk
  unfold getOrganizationAccessRules at h
  split at h
  · simp only [Option.some.injEq, Prod.mk.injEq] at h
    rw [← h.2.1]; exact hk
  · rename_i hcold
    split at h
    · exact absurd h (by simp)
    · simp only [Option.some.injEq, Prod.mk.injEq] at h
      rw [← h.2.1]; exact hk
    · simp only [Option.some.injEq, Prod.mk.injEq] at h
      have hne : k ≠ orgID := by
        intro hkz; rw [hkz, hcold] at hk; exact Option.noConfusion hk
      rw [← h.2.1, alookup_cons, if_neg hne]
      exact hk

/-- `findZoneAccessRule` never overwrites or removes a populated cache
entry. -/
theorem findZoneAccessRule_cache_mono (fetch : Fetcher) (cache : Cache)
    (zoneID ruleID : String) (fuel : Nat) (res : Except String AccessRule)
    (c' : Cache) (tr : List ListRequest)
    (h : findZoneAccessRule fetch cache zoneID ruleID fuel = some (res, c', tr)) :
    ∀ k v, alookup k cache = some v → alookup k c' = some v := by
  intro k v hk
  unfold findZoneAccessRule at h
  split at h
  · exact absurd h (by simp)
  · rename_i e c tr1 heq
    simp only [Option.some.injEq, Prod.mk.injEq] at h
    rw [← h.2.1]
    exact getZoneAccessRules_cache_mono fetch cache zoneID fuel (.error e) c tr1 heq k v hk
  · rename_i rules c tr1 heq
    split at h
    all_goals
      simp only [Option.some.injEq, Prod.mk.injEq] at h
      rw [← h.2.1]
      exact getZoneAccessRules_cache_mono fetch cache zoneID fuel (.ok rules) c tr1 heq k v hk

/-- `findOrganizationAccessRule` never overwrites or removes a populated
cache entry. -/
theorem findOrganizationAccessRule_cache_mono (fetch : Fetcher) (cache : Cache)
    (orgID ruleID : String) (fuel : Nat) (res : Except String AccessRule)
    (c' : Cache) (tr : List ListRequest)
    (h : findOrganizationAccessRule fetch cache orgID ruleID fuel = some (res, c', tr)) :
    ∀ k v, alookup k cache = some v → alookup k c' = some v := by
  intro k v hk
  unfold findOrganizationAccessRule at h
  split at h
  · exact absurd h (by simp)
  · rename_i e c tr1 heq
    simp only [Option.some.injEq, Prod.mk.injEq] at h
    rw [← h.2.1]
    exact getOrganizationAccessRules_cache_mono fetch cache orgID fuel (.error e) c tr1 heq k v hk
  · rename_i rules c tr1 heq
    split at h
    all_goals
      simp only [Option.some.injEq, Prod.mk.injEq] at h
      rw [← h.2.1]
      exact getOrganizationAccessRules_cache_mono fetch cache orgID fuel (.ok rules) c tr1 heq k v hk

/-- The read operation never changes the resource identifier. -/
theorem read_preserves_id (api : ClientAPI) (fuel : Nat) (d : ResourceData)
    (w : Caches) (res : Except String Unit) (d' : ResourceData) (w' : Caches)
    (tr : List ListRequest)
    (h : resourceCloudflareFirewallAccessRuleRead api fuel d w = some (res, d', w', tr)) :
    d'.id = d.id := by
  unfold resourceCloudflareFirewallAccessRuleRead at h
  split at h
  all_goals split at h
  · exact absurd h (by simp)
  · simp only [Option.some.injEq, Prod.mk.injEq] at h
    rw [← h.2.1]
  · simp only [Option.some.injEq, Prod.mk.injEq] at h
    rw [← h.2.1]
  · exact absurd h (by simp)
  · simp only [Option.some.injEq, Prod.mk.injEq] at h
    rw [← h.2.1]
  · simp only [Option.some.injEq, Prod.mk.injEq] at h
    rw [← h.2.1]

/-- The read operation never overwrites or removes a populated entry of
either cache. -/
theorem read_cache_mono (api : ClientAPI) (fuel : Nat) (d : ResourceData)
    (w : Caches) (res : Except String Unit) (d' : ResourceData) (w' : Caches)
    (tr : List ListRequest)
    (h : resourceCloudflareFirewallAccessRuleRead api fuel d w = some (res, d', w', tr)) :
    ∀ k v,
      (alookup k w.zoneAccessRules = some v → alookup k w'.zoneAccessRules = some v) ∧
      (alookup k w.organizationAccessRules = some v →
        alookup k w'.organizationAccessRules = some v) := by
  intro k v
  unfold resourceCloudflareFirewallAccessRuleRead at h
  split at h
  · split at h
    · exact absurd h (by simp)
    · rename_i e c tr1 heq
      simp only [Option.some.injEq, Prod.mk.injEq] at h
      rw [← h.2.2.1]
      exact ⟨fun hk => findZoneAccessRule_cache_mono api.listRules w.zoneAccessRules
        d.zone_id d.id fuel (.error e) c tr1 heq k v hk, fun hk => hk⟩
    · rename_i rule c tr1 heq
      simp only [Option.some.injEq, Prod.mk.injEq] at h
      rw [← h.2.2.1]
      exact ⟨fun hk => findZoneAccessRule_cache_mono api.listRules w.zoneAccessRules
        d.zone_id d.id fuel (.ok rule) c tr1 heq k v hk, fun hk => hk⟩
  · split at h
    · exact absurd h (by simp)
    · rename_i e c tr1 heq
      simp only [Option.some.injEq, Prod.mk.injEq] at h
      rw [← h.2.2.1]
      exact ⟨fun hk => hk, fun hk => findOrganizationAccessRule_cache_mono api.listRules
        w.organizationAccessRules d.org_id d.id fuel (.error e) c tr1 heq k v hk⟩
    · rename_i rule c tr1 heq
      simp only [Option.some.injEq, Prod.mk.injEq] at h
      rw [← h.2.2.1]
      exact ⟨fun hk => hk, fun hk => findOrganizationAccessRule_cache_mono api.listRules
        w.organizationAccessRules d.org_id d.id fuel (.ok rule) c tr1 heq k v hk⟩

/-- C1: for every collection of rules spread across `P` pages — page `p`
in `1..P` answering with the rules `content p` and the reported total
page count `P` — a cold `find` (no cache entry for the collection)
performs exactly `P` page-fetch calls; it returns the record whose ID is
the requested `ruleID` whenever that ID occurs on some page (rule IDs
being unique across the collection), and fails with the not-found error
when the ID occurs on no page. -/
theorem c1_cold_find_scans_all_pages (fetch : Fetcher)
    (content : Nat → List AccessRule) (P : Nat) (cache : Cache)
    (zoneID ruleID : String) (fuel : Nat)
    (hcold : alookup zoneID cache = none) (hP : 1 ≤ P) (hfuel : P ≤ fuel)
    (hfetch : ∀ p, 1 ≤ p → p ≤ P →
      fetch ⟨zoneID, "zone", p⟩ = .ok ⟨content p, (P : Int)⟩) :
    ∃ res c' tr,
      findZoneAccessRule fetch cache zoneID ruleID fuel = some (res, c', tr) ∧
      tr.length = P ∧
      (∀ r, (∃ p, 1 ≤ p ∧ p ≤ P ∧ r ∈ content p) → r.ID = ruleID →
        (∀ r' p', 1 ≤ p' → p' ≤ P → r' ∈ content p' → r'.ID = ruleID → r' = r) →
        res = .ok r) ∧
      ((∀ r p, 1 ≤ p → p ≤ P → r ∈ content p → r.ID ≠ ruleID) →
        res = .error ("cannot find zone firewall access rule for ID " ++ ruleID)) := by
  have hscan := scanLoop_const_total fetch zoneID "zone" P content hfetch (P - 1) 1 []
    fuel (by omega) (by omega) (by omega)
  have hget : getZoneAccessRules fetch cache zoneID fuel =
      some (.ok (mergeSeq content 1 (P - 1) []),
        (zoneID, mergeSeq content 1 (P - 1) []) :: cache,
        reqSeq zoneID "zone" 1 (P - 1)) := by
    simp only [getZoneAccessRules, hcold, hscan]
  cases halo : alookup ruleID (mergeSeq content 1 (P - 1) []) with
  | none =>
    refine ⟨.error ("cannot find zone firewall access rule for ID " ++ ruleID),
      (zoneID, mergeSeq content 1 (P - 1) []) :: cache,
      reqSeq zoneID "zone" 1 (P - 1), ?_, ?_, ?_, ?_⟩
    · simp only [findZoneAccessRule, hget, halo]
    · rw [reqSeq_length]; omega
    · intro r hex hrid huniq
      obtain ⟨p, hp1, hpP, hmem⟩ := hex
      have hsome : alookup ruleID (mergeSeq content 1 (P - 1) []) = some r := by
        apply alookup_mergeSeq_of_mem ruleID r content (P - 1) 1 []
        · intro i hi x hx hxid
          exact huniq x (1 + i) (by omega) (by omega) hx hxid
        · refine ⟨p - 1, by omega, ?_⟩
          have h1p : 1 + (p - 1) = p := by omega
          rw [h1p]; exact hmem
        · exact hrid
      rw [halo] at hsome
      exact Option.noConfusion hsome
    · intro _; rfl
  | some rule =>
    refine ⟨.ok rule, (zoneID, mergeSeq content 1 (P - 1) []) :: cache,
      reqSeq zoneID "zone" 1 (P - 1), ?_, ?_, ?_, ?_⟩
    · simp only [findZoneAccessRule, hget, halo]
    · rw [reqSeq_length]; omega
    · intro r hex hrid huniq
      obtain ⟨p, hp1, hpP, hmem⟩ := hex
      have hsome : alookup ruleID (mergeSeq content 1 (P - 1) []) = some r := by
        apply alookup_mergeSeq_of_mem ruleID r content (P - 1) 1 []
        · intro i hi x hx hxid
          exact huniq x (1 + i) (by omega) (by omega) hx hxid
        · refine ⟨p - 1, by omega, ?_⟩
          have h1p : 1 + (p - 1) = p := by omega
          rw [h1p]; exact hmem
        · exact hrid
      rw [halo] at hsome
      injection hsome with h'
      rw [h']
    · intro habs
      have hnone : alookup ruleID (mergeSeq content 1 (P - 1) []) =
          alookup ruleID ([] : RulesMap) := by
        apply alookup_mergeSeq_of_absent
        intro i hi x hx
        exact habs x (1 + i) (by omega) (by omega) hx
      rw [halo] at hnone
      exact absurd hnone (by simp [alookup])

/-- Witness for C1: the two-page collection `[[ruleA], [ruleB]]` under a
cold cache is found in exactly two page fetches. -/
theorem c1_witness_cold_find :
    ∃ res c' tr,
      findZoneAccessRule (pagesFetcher [[ruleA], [ruleB]]) [] "Z1" "B" 2 =
        some (res, c', tr) ∧ tr.length = 2 := by
  obtain ⟨res, c', tr, h1, h2, h3, h4⟩ :=
    c1_cold_find_scans_all_pages (pagesFetcher [[ruleA], [ruleB]])
      (fun p => ((([[ruleA], [ruleB]] : List (List AccessRule))).drop (p - 1)).headD [])
      2 [] "Z1" "B" 2 rfl (by omega) (by omega) (fun p _ _ => rfl)
  exact ⟨res, c', tr, h1, h2⟩

/-- C2: the scan stops exactly when the reported total-page count is zero
or equals the current page number.  First conjunct: for an empty
collection (page 1 answers no rules and a total-page count of zero) a
cold `find` makes exactly one page-fetch call and fails with the
not-found error for every requested ID.  Second conjunct: against pages
consistently reporting a total-page count of 3, a cold scan stops after
exactly 3 fetches.  Both are stated under the fuel precondition that
makes the modelled loop terminate, matching the spec's protocol
precondition. -/
theorem c2_pagination_termination :
    (∀ (fetch : Fetcher) (cache : Cache) (zoneID ruleID : String) (fuel : Nat),
      alookup zoneID cache = none →
      fetch ⟨zoneID, "zone", 1⟩ = .ok ⟨[], 0⟩ →
      1 ≤ fuel →
      findZoneAccessRule fetch cache zoneID ruleID fuel =
        some (.error ("cannot find zone firewall access rule for ID " ++ ruleID),
          (zoneID, []) :: cache, [⟨zoneID, "zone", 1⟩])) ∧
    (∀ (fetch : Fetcher) (content : Nat → List AccessRule) (cache : Cache)
        (zoneID ruleID : String) (fuel : Nat),
      alookup zoneID cache = none →
      (∀ p, 1 ≤ p → p ≤ 3 →
        fetch ⟨zoneID, "zone", p⟩ = .ok ⟨content p, ((3 : Nat) : Int)⟩) →
      3 ≤ fuel →
      ∃ res c' tr,
        findZoneAccessRule fetch cache zoneID ruleID fuel = some (res, c', tr) ∧
        tr.length = 3) := by
  constructor
  · intro fetch cache zoneID ruleID fuel hcold hfetch hfuel
    obtain ⟨f, rfl⟩ : ∃ f, fuel = f + 1 := ⟨fuel - 1, by omega⟩
    have hscan : scanLoop fetch zoneID "zone" (f + 1) 1 [] =
        some (.ok [], [⟨zoneID, "zone", 1⟩]) := by
      simp only [scanLoop, hfetch]
      rw [if_pos (Or.inl trivial)]
      rfl
    simp only [findZoneAccessRule, getZoneAccessRules, hcold, hscan, alookup]
  · intro fetch content cache zoneID ruleID fuel hcold hfetch hfuel
    have hscan := scanLoop_const_total fetch zoneID "zone" 3 content hfetch 2 1 [] fuel
      (by omega) (by omega) (by omega)
    have hget : getZoneAccessRules fetch cache zoneID fuel =
        some (.ok (mergeSeq content 1 2 []),
          (zoneID, mergeSeq content 1 2 []) :: cache, reqSeq zoneID "zone" 1 2) := by
      simp only [getZoneAccessRules, hcold, hscan]
    cases halo : alookup ruleID (mergeSeq content 1 2 []) with
    | none =>
      refine ⟨.error ("cannot find zone firewall access rule for ID " ++ ruleID),
        (zoneID, mergeSeq content 1 2 []) :: cache, reqSeq zoneID "zone" 1 2, ?_, ?_⟩
      · simp only [findZoneAccessRule, hget, halo]
      · rw [reqSeq_length]
    | some rule =>
      refine ⟨.ok rule, (zoneID, mergeSeq content 1 2 []) :: cache,
        reqSeq zoneID "zone" 1 2, ?_, ?_⟩
      · simp only [findZoneAccessRule, hget, halo]
      · rw [reqSeq_length]

/-- Witness for C2: an empty collection is scanned in one fetch and the
lookup fails with the not-found error. -/
theorem c2_witness_empty_collection :
    findZoneAccessRule (fun _ => .ok ⟨[], 0⟩) [] "Z2" "X" 1 =
      some (.error ("cannot find zone firewall access rule for ID " ++ "X"),
        ("Z2", []) :: [], [⟨"Z2", "zone", 1⟩]) :=
  c2_pagination_termination.1 (fun _ => .ok ⟨[], 0⟩) [] "Z2" "X" 1 rfl rfl (by omega)

/-- C3: when the paginated scan hits a page-fetch failure, the collection
getter aborts with exactly that upstream error (the failure of the last
request it issued), leaves the cache unchanged — caching no partial scan —
and `find` surfaces the same error with the same unchanged cache.  Both
scopes are covered. -/
theorem c3_upstream_failure_no_partial_cache :
    (∀ (fetch : Fetcher) (cache : Cache) (zoneID : String) (fuel : Nat)
        (e : String) (c' : Cache) (tr : List ListRequest),
      getZoneAccessRules fetch cache zoneID fuel = some (.error e, c', tr) →
      c' = cache ∧ (∃ tr' req, tr = tr' ++ [req] ∧ fetch req = .error e) ∧
      ∀ ruleID, findZoneAccessRule fetch cache zoneID ruleID fuel =
        some (.error e, c', tr)) ∧
    (∀ (fetch : Fetcher) (cache : Cache) (orgID : String) (fuel : Nat)
        (e : String) (c' : Cache) (tr : List ListRequest),
      getOrganizationAccessRules fetch cache orgID fuel = some (.error e, c', tr) →
      c' = cache ∧ (∃ tr' req, tr = tr' ++ [req] ∧ fetch req = .error e) ∧
      ∀ ruleID, findOrganizationAccessRule fetch cache orgID ruleID fuel =
        some (.error e, c', tr)) := by
  constructor
  · intro fetch cache zoneID fuel e c' tr h
    have hfind : ∀ ruleID, findZoneAccessRule fetch cache zoneID ruleID fuel =
        some (.error e, c', tr) := by
      intro ruleID
      simp only [findZoneAccessRule, h]
    unfold getZoneAccessRules at h
    split at h
    · exact absurd h (by simp)
    · split at h
      · exact absurd h (by simp)
      · rename_i e1 tr1 heq
        simp only [Option.some.injEq, Prod.mk.injEq, Except.error.injEq] at h
        obtain ⟨he, hc, htr⟩ := h
        obtain ⟨tr', req, h1, h2⟩ :=
          scanLoop_error_last fetch zoneID "zone" fuel 1 [] e1 tr1 heq
        exact ⟨hc.symm, ⟨tr', req, by rw [← htr, h1], by rw [← he]; exact h2⟩, hfind⟩
      · exact absurd h (by simp)
  · intro fetch cache orgID fuel e c' tr h
    have hfind : ∀ ruleID, findOrganizationAccessRule fetch cache orgID ruleID fuel =
        some (.error e, c', tr) := by
      intro ruleID
      simp only [findOrganizationAccessRule, h]
    unfold getOrganizationAccessRules at h
    split at h
    · exact absurd h (by simp)
    · split at h
      · exact absurd h (by simp)
      · rename_i e1 tr1 heq
        simp only [Option.some.injEq, Prod.mk.injEq, Except.error.injEq] at h
        obtain ⟨he, hc, htr⟩ := h
        obtain ⟨tr', req, h1, h2⟩ :=
          scanLoop_error_last fetch orgID "organization" fuel 1 [] e1 tr1 heq
        exact ⟨hc.symm, ⟨tr', req, by rw [← htr, h1], by rw [← he]; exact h2⟩, hfind⟩
      · exact absurd h (by simp)

/-- Witness for C3: a fetcher failing on page 1 of a cold scan leaves the
pre-existing cache entry alone and surfaces the failure. -/
theorem c3_witness_failure :
    ([("Z9", [("A", ruleA)])] : Cache) = [("Z9", [("A", ruleA)])] ∧
    (∃ tr' req, ([⟨"Z0", "zone", 1⟩] : List ListRequest) = tr' ++ [req] ∧
      (fun (_ : ListRequest) => (.error "boom" : Except String AccessRuleListResponse))
        req = .error "boom") ∧
    ∀ ruleID,
      findZoneAccessRule (fun _ => .error "boom") [("Z9", [("A", ruleA)])] "Z0"
        ruleID 1 =
      some (.error "boom", [("Z9", [("A", ruleA)])], [⟨"Z0", "zone", 1⟩]) :=
  c3_upstream_failure_no_partial_cache.1 (fun _ => .error "boom")
    [("Z9", [("A", ruleA)])] "Z0" 1 "boom" [("Z9", [("A", ruleA)])]
    [⟨"Z0", "zone", 1⟩] rfl

/-- Requests issued by `getZoneAccessRules` all carry the zone ID and the
zone scope filter. -/
theorem getZoneAccessRules_trace_fields (fetch : Fetcher) (cache : Cache)
    (zoneID : String) (fuel : Nat) (res : Except String RulesMap) (c' : Cache)
    (tr : List ListRequest)
    (h : getZoneAccessRules fetch cache zoneID fuel = some (res, c', tr)) :
    ∀ req ∈ tr, req.collectionID = zoneID ∧ req.scopeFilter = "zone" := by
  unfold getZoneAccessRules at h
  split at h
  · simp only [Option.some.injEq, Prod.mk.injEq] at h
    rw [← h.2.2]
    intro req hreq
    exact absurd hreq (List.not_mem_nil req)
  · split at h
    · exact absurd h (by simp)
    · rename_i e1 tr1 heq
      simp only [Option.some.injEq, Prod.mk.injEq] at h
      rw [← h.2.2]
      exact scanLoop_trace_fields fetch zoneID "zone" fuel 1 [] (.error e1) tr1 heq
    · rename_i rules1 tr1 heq
      simp only [Option.some.injEq, Prod.mk.injEq] at h
      rw [← h.2.2]
      exact scanLoop_trace_fields fetch zoneID "zone" fuel 1 [] (.ok rules1) tr1 heq

/-- Requests issued by `getOrganizationAccessRules` all carry the
organization ID and the organization scope filter. -/
theorem getOrganizationAccessRules_trace_fields (fetch : Fetcher) (cache : Cache)
    (orgID : String) (fuel : Nat) (res : Except String RulesMap) (c' : Cache)
    (tr : List ListRequest)
    (h : getOrganizationAccessRules fetch cache orgID fuel = some (res, c', tr)) :
    ∀ req ∈ tr, req.collectionID = orgID ∧ req.scopeFilter = "organization" := by
  unfold getOrganizationAccessRules at h
  split at h
  · simp only [Option.some.injEq, Prod.mk.injEq] at h
    rw [← h.2.2]
    intro req hreq
    exact absurd hreq (List.not_mem_nil req)
  · split at h
    · exact absurd h (by simp)
    · rename_i e1 tr1 heq
      simp only [Option.some.injEq, Prod.mk.injEq] at h
      rw [← h.2.2]
      exact scanLoop_trace_fields fetch orgID "organization" fuel 1 [] (.error e1) tr1 heq
    · rename_i rules1 tr1 heq
      simp only [Option.some.injEq, Prod.mk.injEq] at h
      rw [← h.2.2]
      exact scanLoop_trace_fields fetch orgID "organization" fuel 1 [] (.ok rules1) tr1 heq

/-- The request trace of `findZoneAccessRule` is that of
`getZoneAccessRules`. -/
theorem findZoneAccessRule_trace_fields (fetch : Fetcher) (cache : Cache)
    (zoneID ruleID : String) (fuel : Nat) (res : Except String AccessRule)
    (c' : Cache) (tr : List ListRequest)
    (h : findZoneAccessRule fetch cache zoneID ruleID fuel = some (res, c', tr)) :
    ∀ req ∈ tr, req.collectionID = zoneID ∧ req.scopeFilter = "zone" := by
  unfold findZoneAccessRule at h
  split at h
  · exact absurd h (by simp)
  · rename_i e c tr1 heq
    simp only [Option.some.injEq, Prod.mk.injEq] at h
    rw [← h.2.2]
    exact getZoneAccessRules_trace_fields fetch cache zoneID fuel (.error e) c tr1 heq
  · rename_i rules c tr1 heq
    split at h
    all_goals
      simp only [Option.some.injEq, Prod.mk.injEq] at h
      rw [← h.2.2]
      exact getZoneAccessRules_trace_fields fetch cache zoneID fuel (.ok rules) c tr1 heq

/-- The request trace of `findOrganizationAccessRule` is that of
`getOrganizationAccessRules`. -/
theorem findOrganizationAccessRule_trace_fields (fetch : Fetcher) (cache : Cache)
    (orgID ruleID : String) (fuel : Nat) (res : Except String AccessRule)
    (c' : Cache) (tr : List ListRequest)
    (h : findOrganizationAccessRule fetch cache orgID ruleID fuel = some (res, c', tr)) :
    ∀ req ∈ tr, req.collectionID = orgID ∧ req.scopeFilter = "organization" := by
  unfold findOrganizationAccessRule at h
  split at h
  · exact absurd h (by simp)
  · rename_i e c tr1 heq
    simp only [Option.some.injEq, Prod.mk.injEq] at h
    rw [← h.2.2]
    exact getOrganizationAccessRules_trace_fields fetch cache orgID fuel (.error e) c tr1 heq
  · rename_i rules c tr1 heq
    split at h
    all_goals
      simp only [Option.some.injEq, Prod.mk.injEq] at h
      rw [← h.2.2]
      exact getOrganizationAccessRules_trace_fields fetch cache orgID fuel (.ok rules) c tr1 heq

/-- C4: a `find` against a warm cache entry performs zero page-fetch
calls, leaves the cache unchanged, and its result is a function of the
cached entry alone — hence repeated `find` calls for the same pair return
identical results regardless of the fetcher or fuel.  Both scopes are
covered. -/
theorem c4_warm_cache_idempotence :
    (∀ (cache : Cache) (zoneID ruleID : String) (rules : RulesMap),
      alookup zoneID cache = some rules →
      ∃ res, ∀ (fetch : Fetcher) (fuel : Nat),
        findZoneAccessRule fetch cache zoneID ruleID fuel = some (res, cache, [])) ∧
    (∀ (cache : Cache) (orgID ruleID : String) (rules : RulesMap),
      alookup orgID cache = some rules →
      ∃ res, ∀ (fetch : Fetcher) (fuel : Nat),
        findOrganizationAccessRule fetch cache orgID ruleID fuel =
          some (res, cache, [])) := by
  constructor
  · intro cache zoneID ruleID rules hwarm
    cases halo : alookup ruleID rules with
    | none =>
      refine ⟨.error ("cannot find zone firewall access rule for ID " ++ ruleID), ?_⟩
      intro fetch fuel
      simp only [findZoneAccessRule, getZoneAccessRules, hwarm, halo]
    | some rule =>
      refine ⟨.ok rule, ?_⟩
      intro fetch fuel
      simp only [findZoneAccessRule, getZoneAccessRules, hwarm, halo]
  · intro cache orgID ruleID rules hwarm
    cases halo : alookup ruleID rules with
    | none =>
      refine ⟨.error ("cannot find organization firewall access rule for ID " ++ ruleID), ?_⟩
      intro fetch fuel
      simp only [findOrganizationAccessRule, getOrganizationAccessRules, hwarm, halo]
    | some rule =>
      refine ⟨.ok rule, ?_⟩
      intro fetch fuel
      simp only [findOrganizationAccessRule, getOrganizationAccessRules, hwarm, halo]

/-- Witness for C4: with the entry for `Z1` populated, two `find` calls
with different fetchers and fuels return the same result, with no
requests and no cache change. -/
theorem c4_witness_warm_cache :
    ∃ res,
      findZoneAccessRule (fun _ => .error "down") [("Z1", [("A", ruleA)])] "Z1" "A" 0 =
        some (res, [("Z1", [("A", ruleA)])], []) ∧
      findZoneAccessRule (pagesFetcher [[ruleB]]) [("Z1", [("A", ruleA)])] "Z1" "A" 7 =
        some (res, [("Z1", [("A", ruleA)])], []) := by
  obtain ⟨res, hres⟩ :=
    c4_warm_cache_idempotence.1 [("Z1", [("A", ruleA)])] "Z1" "A" [("A", ruleA)] rfl
  exact ⟨res, hres (fun _ => .error "down") 0, hres (pagesFetcher [[ruleB]]) 7⟩

/-- C5: every listing request issued by a zone-scoped `find` carries the
zone collection ID and the zone scope filter — never the organization
filter — and dually for an organization-scoped `find`. -/
theorem c5_scope_routing :
    (∀ (fetch : Fetcher) (cache : Cache) (zoneID ruleID : String) (fuel : Nat)
        (res : Except String AccessRule) (c' : Cache) (tr : List ListRequest),
      findZoneAccessRule fetch cache zoneID ruleID fuel = some (res, c', tr) →
      ∀ req ∈ tr, req.collectionID = zoneID ∧ req.scopeFilter = "zone" ∧
        req.scopeFilter ≠ "organization") ∧
    (∀ (fetch : Fetcher) (cache : Cache) (orgID ruleID : String) (fuel : Nat)
        (res : Except String AccessRule) (c' : Cache) (tr : List ListRequest),
      findOrganizationAccessRule fetch cache orgID ruleID fuel = some (res, c', tr) →
      ∀ req ∈ tr, req.collectionID = orgID ∧ req.scopeFilter = "organization" ∧
        req.scopeFilter ≠ "zone") := by
  constructor
  · intro fetch cache zoneID ruleID fuel res c' tr h req hreq
    obtain ⟨h1, h2⟩ :=
      findZoneAccessRule_trace_fields fetch cache zoneID ruleID fuel res c' tr h req hreq
    refine ⟨h1, h2, ?_⟩
    rw [h2]
    decide
  · intro fetch cache orgID ruleID fuel res c' tr h req hreq
    obtain ⟨h1, h2⟩ :=
      findOrganizationAccessRule_trace_fields fetch cache orgID ruleID fuel res c' tr
        h req hreq
    refine ⟨h1, h2, ?_⟩
    rw [h2]
    decide

/-- Witness for C5: the single request of a one-page cold zone scan is
zone-filtered and not organization-filtered. -/
theorem c5_witness_scope :
    (⟨"Z1", "zone", 1⟩ : ListRequest).collectionID = "Z1" ∧
    (⟨"Z1", "zone", 1⟩ : ListRequest).scopeFilter = "zone" ∧
    (⟨"Z1", "zone", 1⟩ : ListRequest).scopeFilter ≠ "organization" :=
  c5_scope_routing.1 (pagesFetcher [[ruleA]]) [] "Z1" "A" 1
    (.ok ruleA) [("Z1", [("A", ruleA)])] [⟨"Z1", "zone", 1⟩] rfl
    ⟨"Z1", "zone", 1⟩ (List.mem_singleton.mpr rfl)

/-- C6: the create, update and delete operations never overwrite,
invalidate or remove a populated `LookupCache` entry: delete leaves both
cache maps exactly unchanged, and update and create preserve every
populated entry of both maps (any writing happens only inside a cold
`find` and only for a previously-absent key, as the final two conjuncts
record for the finders themselves). -/
theorem c6_cud_never_touch_populated_cache :
    (∀ (api : ClientAPI) (d : ResourceData) (w : Caches),
      (resourceCloudflareFirewallAccessRuleDelete api d w).2.2 = w) ∧
    (∀ (api : ClientAPI) (fuel : Nat) (d : ResourceData) (w : Caches)
        (res : Except String Unit) (d' : ResourceData) (w' : Caches)
        (tr : List ListRequest),
      resourceCloudflareFirewallAccessRuleUpdate api fuel d w = some (res, d', w', tr) →
      ∀ k v,
        (alookup k w.zoneAccessRules = some v → alookup k w'.zoneAccessRules = some v) ∧
        (alookup k w.organizationAccessRules = some v →
          alookup k w'.organizationAccessRules = some v)) ∧
    (∀ (api : ClientAPI) (fuel : Nat) (d : ResourceData) (w : Caches)
        (res : Except String Unit) (d' : ResourceData) (w' : Caches)
        (tr : List ListRequest),
      resourceCloudflareFirewallAccessRuleCreate api fuel d w = some (res, d', w', tr) →
      ∀ k v,
        (alookup k w.zoneAccessRules = some v → alookup k w'.zoneAccessRules = some v) ∧
        (alookup k w.organizationAccessRules = some v →
          alookup k w'.organizationAccessRules = some v)) ∧
    (∀ (fetch : Fetcher) (cache : Cache) (zoneID ruleID : String) (fuel : Nat)
        (res : Except String AccessRule) (c' : Cache) (tr : List ListRequest),
      findZoneAccessRule fetch cache zoneID ruleID fuel = some (res, c', tr) →
      ∀ k v, alookup k cache = some v → alookup k c' = some v) ∧
    (∀ (fetch : Fetcher) (cache : Cache) (orgID ruleID : String) (fuel : Nat)
        (res : Except String AccessRule) (c' : Cache) (tr : List ListRequest),
      findOrganizationAccessRule fetch cache orgID ruleID fuel = some (res, c', tr) →
      ∀ k v, alookup k cache = some v → alookup k c' = some v) := by
  refine ⟨?_, ?_, ?_, ?_, ?_⟩
  · intro api d w
    unfold resourceCloudflareFirewallAccessRuleDelete
    split
    · split <;> rfl
    · split <;> rfl
  · intro api fuel d w res d' w' tr h
    unfold resourceCloudflareFirewallAccessRuleUpdate at h
    split at h
    · split at h
      · simp only [Option.some.injEq, Prod.mk.injEq] at h
        rw [← h.2.2.1]
        exact fun k v => ⟨fun hk => hk, fun hk => hk⟩
      · exact read_cache_mono api fuel d w res d' w' tr h
    · split at h
      · simp only [Option.some.injEq, Prod.mk.injEq] at h
        rw [← h.2.2.1]
        exact fun k v => ⟨fun hk => hk, fun hk => hk⟩
      · exact read_cache_mono api fuel d w res d' w' tr h
  · intro api fuel d w res d' w' tr h
    unfold resourceCloudflareFirewallAccessRuleCreate at h
    split at h
    · simp only [Option.some.injEq, Prod.mk.injEq] at h
      rw [← h.2.2.1]
      exact fun k v => ⟨fun hk => hk, fun hk => hk⟩
    · split at h
      · simp only [Option.some.injEq, Prod.mk.injEq] at h
        rw [← h.2.2.1]
        exact fun k v => ⟨fun hk => hk, fun hk => hk⟩
      · split at h
        · simp only [Option.some.injEq, Prod.mk.injEq] at h
          rw [← h.2.2.1]
          exact fun k v => ⟨fun hk => hk, fun hk => hk⟩
        · split at h
          · simp only [Option.some.injEq, Prod.mk.injEq] at h
            rw [← h.2.2.1]
            exact fun k v => ⟨fun hk => hk, fun hk => hk⟩
          · exact read_cache_mono api fuel _ w res d' w' tr h
  · intro fetch cache zoneID ruleID fuel res c' tr h
    exact findZoneAccessRule_cache_mono fetch cache zoneID ruleID fuel res c' tr h
  · intro fetch cache orgID ruleID fuel res c' tr h
    exact findOrganizationAccessRule_cache_mono fetch cache orgID ruleID fuel res c' tr h

/-- Witness for C6: an update whose remote call fails leaves the
populated entry for `Z1` in place, and a delete returns the caches
exactly. -/
theorem c6_witness_cud :
    alookup "Z1" wStub.zoneAccessRules = some [("A", ruleA)] ∧
    (resourceCloudflareFirewallAccessRuleDelete apiStub dStub wStub).2.2 = wStub := by
  constructor
  · exact ((c6_cud_never_touch_populated_cache.2.1 apiStub 1 dStub wStub
      (.error "stub") dStub wStub [] rfl) "Z1" [("A", ruleA)]).1 rfl
  · exact c6_cud_never_touch_populated_cache.1 apiStub dStub wStub

/-- C7: the scope resolver makes no remote call for zone scope — the
collection identifier is the zone ID itself — and for organization scope
makes exactly one zone-details call whose owner ID becomes the collection
identifier; a zone-details failure is propagated verbatim. -/
theorem c7_scope_resolver :
    (∀ (zoneDetails : String → Except String Zone) (zoneID : String),
      resolveScope zoneDetails "zone" zoneID = (.ok "N/A", 0) ∧
      collectionIDOf "zone" zoneID "N/A" = zoneID) ∧
    (∀ (zoneDetails : String → Except String Zone) (zoneID : String) (z : Zone),
      zoneDetails zoneID = .ok z →
      resolveScope zoneDetails "organization" zoneID = (.ok z.Owner.ID, 1) ∧
      collectionIDOf "organization" zoneID z.Owner.ID = z.Owner.ID) ∧
    (∀ (zoneDetails : String → Except String Zone) (zoneID : String) (e : String),
      zoneDetails zoneID = .error e →
      resolveScope zoneDetails "organization" zoneID = (.error e, 1)) := by
  refine ⟨?_, ?_, ?_⟩
  · intro zoneDetails zoneID
    exact ⟨rfl, rfl⟩
  · intro zoneDetails zoneID z hz
    constructor
    · unfold resolveScope
      rw [if_pos (by decide), hz]
    · rfl
  · intro zoneDetails zoneID e hz
    unfold resolveScope
    rw [if_pos (by decide), hz]

/-- Witness for C7: concrete zone-details oracles exercising all three
branches of the resolver. -/
theorem c7_witness_resolver :
    (resolveScope (fun _ => .error "unused") "zone" "Z1" = (.ok "N/A", 0) ∧
      collectionIDOf "zone" "Z1" "N/A" = "Z1") ∧
    (resolveScope (fun _ => .ok ⟨⟨"ORG"⟩⟩) "organization" "Z1" = (.ok "ORG", 1) ∧
      collectionIDOf "organization" "Z1" "ORG" = "ORG") ∧
    resolveScope (fun _ => .error "nope") "organization" "Z1" = (.error "nope", 1) :=
  ⟨c7_scope_resolver.1 (fun _ => .error "unused") "Z1",
    c7_scope_resolver.2.1 (fun _ => .ok ⟨⟨"ORG"⟩⟩) "Z1" ⟨⟨"ORG"⟩⟩ rfl,
    c7_scope_resolver.2.2 (fun _ => .error "nope") "Z1" "nope" rfl⟩

/-- C9: the create operation fails with the empty-ID error whenever the
remote create call succeeds but returns a rule with an empty identifier
(first conjunct: a successful create never leaves an empty identifier;
second conjunct: the identifier is either untouched or assigned non-empty;
third conjunct: the exact empty-ID failure). -/
theorem c9_create_rejects_empty_id :
    (∀ (api : ClientAPI) (fuel : Nat) (d : ResourceData) (w : Caches)
        (d' : ResourceData) (w' : Caches) (tr : List ListRequest),
      resourceCloudflareFirewallAccessRuleCreate api fuel d w =
        some (.ok (), d', w', tr) →
      d'.id ≠ "") ∧
    (∀ (api : ClientAPI) (fuel : Nat) (d : ResourceData) (w : Caches)
        (res : Except String Unit) (d' : ResourceData) (w' : Caches)
        (tr : List ListRequest),
      resourceCloudflareFirewallAccessRuleCreate api fuel d w = some (res, d', w', tr) →
      d'.id = d.id ∨ d'.id ≠ "") ∧
    (∀ (api : ClientAPI) (fuel : Nat) (d : ResourceData) (w : Caches)
        (zoneID orgID : String) (resp : AccessRuleResponse),
      api.zoneIDByName d.zone = .ok zoneID →
      (resolveScope api.zoneDetails d.scope zoneID).1 = .ok orgID →
      (if d.scope == "zone" then api.createZoneAccessRule zoneID (accessRuleFromData d)
        else api.createOrganizationAccessRule orgID (accessRuleFromData d)) = .ok resp →
      resp.Result.ID = "" →
      resourceCloudflareFirewallAccessRuleCreate api fuel d w =
        some (.error "failed to find ID in Create response; resource was empty",
          { d with zone_id := zoneID, org_id := orgID }, w, [])) := by
  refine ⟨?_, ?_, ?_⟩
  · intro api fuel d w d' w' tr h
    unfold resourceCloudflareFirewallAccessRuleCreate at h
    split at h
    · exact absurd h (by simp)
    · split at h
      · exact absurd h (by simp)
      · split at h
        · exact absurd h (by simp)
        · split at h
          · exact absurd h (by simp)
          · rename_i hne
            have hid := read_preserves_id api fuel _ w (.ok ()) d' w' tr h
            rw [hid]
            simp only [beq_iff_eq] at hne
            exact hne
  · intro api fuel d w res d' w' tr h
    unfold resourceCloudflareFirewallAccessRuleCreate at h
    split at h
    · simp only [Option.some.injEq, Prod.mk.injEq] at h
      left
      rw [← h.2.1]
    · split at h
      · simp only [Option.some.injEq, Prod.mk.injEq] at h
        left
        rw [← h.2.1]
      · split at h
        · simp only [Option.some.injEq, Prod.mk.injEq] at h
          left
          rw [← h.2.1]
        · split at h
          · simp only [Option.some.injEq, Prod.mk.injEq] at h
            left
            rw [← h.2.1]
          · rename_i hne
            right
            have hid := read_preserves_id api fuel _ w res d' w' tr h
            rw [hid]
            simp only [beq_iff_eq] at hne
            exact hne
  · intro api fuel d w zoneID orgID resp h1 h2 h3 h4
    simp only [resourceCloudflareFirewallAccessRuleCreate, h1, h2, h3, h4]
    rfl

/-- Witness for C9: a create whose remote call returns an empty-ID rule
fails with the empty-ID error without assigning the identifier. -/
theorem c9_witness_empty_id :
    resourceCloudflareFirewallAccessRuleCreate apiCreateEmpty 1 dStub wStub =
      some (.error "failed to find ID in Create response; resource was empty",
        { dStub with zone_id := "Z1", org_id := "N/A" }, wStub, []) :=
  c9_create_rejects_empty_id.2.2 apiCreateEmpty 1 dStub wStub "Z1" "N/A"
    ⟨accessRuleFromData dStub⟩ rfl rfl rfl rfl

/-- C10: the virtual DNS read treats a remote failure whose message
contains "HTTP status 404" as out-of-band deletion — clearing the local
identifier and succeeding — while every other failure is returned wrapped
in the read-error message with the resource data untouched. -/
theorem c10_virtual_dns_read_404 :
    ∀ (client : String → String → Except String VirtualDNS)
      (organizationID : String) (d : VirtualDNSResourceData) (e : String),
      client organizationID d.id = .error e →
      (strContains e "HTTP status 404" = true →
        resourceCloudflareVirtualDNSRead client organizationID d =
          (.ok (), { d with id := "" })) ∧
      (strContains e "HTTP status 404" = false →
        resourceCloudflareVirtualDNSRead client organizationID d =
          (.error ("Error reading VirtualDNS from API for resource " ++ d.id ++ ": " ++ e),
            d)) := by
  intro client organizationID d e hclient
  constructor
  · intro h404
    simp only [resourceCloudflareVirtualDNSRead, hclient, h404]
    rfl
  · intro h404
    simp only [resourceCloudflareVirtualDNSRead, hclient, h404]
    rfl

/-- Witness for C10: a 404 failure clears the identifier and succeeds; a
different failure is wrapped and returned with the data untouched. -/
theorem c10_witness_read :
    resourceCloudflareVirtualDNSRead (fun _ _ => .error "HTTP status 404") "org" vdStub =
      (.ok (), { vdStub with id := "" }) ∧
    resourceCloudflareVirtualDNSRead (fun _ _ => .error "kaboom") "org" vdStub =
      (.error ("Error reading VirtualDNS from API for resource " ++ vdStub.id ++
        ": " ++ "kaboom"), vdStub) :=
  ⟨(c10_virtual_dns_read_404 (fun _ _ => .error "HTTP status 404") "org" vdStub
      "HTTP status 404" rfl).1 (by decide),
    (c10_virtual_dns_read_404 (fun _ _ => .error "kaboom") "org" vdStub
      "kaboom" rfl).2 (by decide)⟩

example :
    findZoneAccessRule (pagesFetcher [[ruleA], [ruleB]]) [] "Z1" "B" 2 =
      some (.ok ruleB, [("Z1", [("B", ruleB), ("A", ruleA)])],
        [⟨"Z1", "zone", 1⟩, ⟨"Z1", "zone", 2⟩]) := by
  rfl

example :
    findZoneAccessRule (fun _ => .ok ⟨[], 0⟩) [] "Z2" "X" 5 =
      some (.error ("cannot find zone firewall access rule for ID " ++ "X"),
        [("Z2", [])], [⟨"Z2", "zone", 1⟩]) := by
  rfl

end TerraformCloudflare

